import Mathlib

/-!
Shallow embedding of `src/lib/zip-writer.js` (ZipWriter / createFileEntry).

Conventions of the embedding:
* A byte is a `Nat` (< 256 by construction: every multi-byte store reduces
  its value `% 256` per byte, mirroring `DataView.setUintN` coercion).
* A sink (`Uint8ArrayWriter` or the shared output writer) is the list of
  bytes appended to it, in order; `writeUint8Array` is list append.
* `Uint8Array` buffers that the source fills with non-overlapping
  `DataView.setUintN` / `TypedArray.set` calls at strictly increasing
  offsets are embedded as the concatenation of their segments, with
  untouched regions written out as explicit zero bytes (a fresh
  `Uint8Array` is zero-initialised); every segment is annotated with the
  byte offsets it occupies in the source's buffer.
* The external processing pipeline (`createCodec` + `processData`,
  out of scope per the spec) is a parameter `proc`; per the spec it
  returns the bytes it wrote to the sink and an optional checksum, and
  `result.length` is the number of bytes written.
* JS exceptions become explicit error values; `add` returns the mutated
  state next to the optional error, because the JS method mutates
  `this` in place before a throw can propagate.
-/

namespace ZipWriterModel

/-- Errors thrown by `zip-writer.js` plus errors propagated from the
external processing pipeline. -/
inductive ZipError where
  | duplicateName
  | commentTooLarge
  | pipelineError
  deriving DecidableEq, Repr

/-- Embedding of `DataView.setUint16(_, v, true)`: the two little-endian bytes of `v`
(after JS `ToUint16` truncation, realised by the per-byte `% 256`). -/
def u16le (v : Nat) : List Nat := [v % 256, v / 256 % 256]

/-- Embedding of `DataView.setUint32(_, v, true)`: the four little-endian bytes of `v`. -/
def u32le (v : Nat) : List Nat :=
  [v % 256, v / 256 % 256, v / 65536 % 256, v / 16777216 % 256]

/-- A run of `n` zero bytes (fresh `Uint8Array` regions never written). -/
def zeros (n : Nat) : List Nat := List.replicate n 0

/-- UTF-8 bytes of one character, as produced by
`unescape(encodeURIComponent(...))` followed by `charCodeAt` on each
code unit (`encodeUTF8` + `getBytes` in the source). -/
def charUtf8 (c : Char) : List Nat :=
  let n := c.toNat
  if n < 128 then [n]
  else if n < 2048 then [192 + n / 64, 128 + n % 64]
  else if n < 65536 then [224 + n / 4096, 128 + n / 64 % 64, 128 + n % 64]
  else [240 + n / 262144, 128 + n / 4096 % 64, 128 + n / 64 % 64, 128 + n % 64]

/-- Embedding of `getBytes(encodeUTF8(s))`: the UTF-8 byte expansion of a string. -/
def getBytes (s : String) : List Nat := (s.data.map charUtf8).foldr (· ++ ·) []

/-- Embedding of `String.prototype.trim()`: strip leading and trailing whitespace. -/
def jsTrim (s : String) : String :=
  ⟨((s.data.dropWhile Char.isWhitespace).reverse.dropWhile Char.isWhitespace).reverse⟩

/-- Embedding of `name.charAt(name.length - 1) == "/"`. -/
def lastIsSlash (s : String) : Bool := s.data.getLast? == some '/'

/-- A timestamp as the JS `Date` accessors used by the source expose it:
`month` is `getMonth()` (0-based), `day` is `getDate()` (1-based). -/
structure DateTime where
  year : Nat
  month : Nat
  day : Nat
  hours : Nat
  minutes : Nat
  seconds : Nat
  deriving DecidableEq, Repr

/-- DOS packed time, line 149:
`((date.getHours() << 6) | date.getMinutes()) << 5 | date.getSeconds() / 2`
(`setUint16` truncates the fractional `.5` toward zero, i.e. `Nat` division). -/
def dosTime (d : DateTime) : Nat :=
  (((d.hours <<< 6) ||| d.minutes) <<< 5) ||| (d.seconds / 2)

/-- DOS packed date, line 150:
`(((date.getFullYear() - 1980) << 4) | (date.getMonth() + 1)) << 5 | date.getDate()`. -/
def dosDate (d : DateTime) : Nat :=
  ((((d.year - 1980) <<< 4) ||| (d.month + 1)) <<< 5) ||| d.day

/-- The `options` object accepted by `ZipWriter.add` / `createFileEntry`.
`password` is `none` for `undefined`, `some []` for an empty string;
`level = none` models `undefined` (so `options.level !== 0` holds);
`version = 0` models an absent (falsy) `options.version`;
an absent `extraField` coincides with `[]` (`options.extraField || new
Uint8Array([])`); an absent `comment` coincides with `""`. -/
structure EntryOptions where
  directory : Bool := false
  password : Option (List Nat) := none
  level : Option Nat := none
  comment : String := ""
  extraField : List Nat := []
  lastModDate : Option DateTime := none
  version : Nat := 0
  bufferedWrite : Bool := false
  deriving DecidableEq, Repr

/-- JS truthiness of `options.password && options.password.length &&
options.password` (also of `Boolean(options.password)` for a string
password): defined and non-empty. -/
def truthyPassword : Option (List Nat) → Bool
  | none => false
  | some p => !p.isEmpty

/-- Line 124: `const compressed = options.level !== 0 && !options.directory`. -/
def compressedFlag (opts : EntryOptions) : Bool :=
  !(opts.level == some 0) && !opts.directory

/-- Line 125: `const outputSigned = options.password === undefined ||
!options.password.length`. -/
def outputSignedFlag (opts : EntryOptions) : Bool :=
  !truthyPassword opts.password

/-- A content source: after `init()` its `size` is known. The pipeline,
not the core, consumes its content, so only the size is modelled. -/
structure Reader where
  size : Nat
  deriving DecidableEq, Repr

/-- The argument record built at lines 164-171 for `createCodec`
(`codecType: "deflate"` is fixed and omitted). -/
structure CodecOptions where
  level : Option Nat
  outputPassword : Option (List Nat)
  outputSigned : Bool
  outputCompressed : Bool
  outputEncrypted : Bool
  deriving DecidableEq, Repr

def codecOptions (opts : EntryOptions) : CodecOptions :=
  { level := opts.level
    outputPassword := opts.password
    outputSigned := outputSignedFlag opts
    outputCompressed := compressedFlag opts
    outputEncrypted := truthyPassword opts.password }

/-- Result of the external pipeline (`processData`), per the spec's
collaborator contract: `out` is the byte sequence it appended to the
sink and `result.length` is its length; `signature` is the optional
checksum (`undefined` when the codec suppresses it). -/
structure ProcResult where
  out : List Nat
  signature : Option Nat
  deriving DecidableEq, Repr

/-- The external processing pipeline as a parameter: it may fail
(its error propagates out of `add` unchanged). -/
def Pipeline : Type := CodecOptions → Reader → Except ZipError ProcResult

/-- The per-entry record built by `createFileEntry` (the JS object
literal at lines 126-132, with `length` and `offset` attached later). -/
structure FileEntry where
  headerArray : List Nat
  directory : Bool
  filename : List Nat
  comment : List Nat
  extraField : List Nat
  length : Nat
  offset : Nat
  deriving DecidableEq, Repr

/-- Byte 0 of the unencrypted header: `0x14`, overwritten by
`options.version` when that is truthy (line 142-144), with the
`setUint8` coercion `% 256`. -/
def versionByte (opts : EntryOptions) : Nat :=
  if opts.version ≠ 0 then opts.version % 256 else 0x14

/-- Bytes 0-5 of the 26-byte header mid-section.
Encrypted (lines 134-135): `setUint32(0, 0x33000900)` big-endian then
`setUint8(4, 0x63)`, byte 5 untouched.
Plain (lines 141-147): `setUint32(0, 0x14000808)` big-endian, byte 0
overwritten by a truthy `options.version`, bytes 4-5 set big-endian to
`0x0800` when compressed, otherwise left zero. -/
def headerPrefix (opts : EntryOptions) : List Nat :=
  if truthyPassword opts.password then
    [0x33, 0x00, 0x09, 0x00, 0x63, 0x00]
  else
    [versionByte opts, 0x00, 0x08, 0x08] ++
      (if compressedFlag opts then [0x08, 0x00] else [0x00, 0x00])

/-- The 26-byte header mid-section (`headerArray`), as segments:
bytes 0-5 version/flags, 6-7 DOS time (LE, line 149), 8-9 DOS date (LE,
line 150), 10-13 checksum, 14-17 compressed length, 18-21 original size
(all three zero until patched at lines 178-185), 22-23 filename length
(LE, line 151), 24-25 extra-field length (LE, line 153). -/
def mkHeader (opts : EntryOptions) (d : DateTime) (fnLen efLen : Nat)
    (crc comp size : List Nat) : List Nat :=
  headerPrefix opts ++ u16le (dosTime d) ++ u16le (dosDate d) ++
    crc ++ comp ++ size ++ u16le fnLen ++ u16le efLen

/-- The fixed 11-byte AES extra field (line 136), with byte 9 patched to
`0x08` when the entry is compressed (lines 137-138). -/
def aesExtraField (compressed : Bool) : List Nat :=
  [0x01, 0x99, 0x07, 0x00, 0x02, 0x00, 0x41, 0x45, 0x03,
    if compressed then 0x08 else 0x00, 0x00]

/-- The extra field attached to the entry: the caller's bytes
(line 131), replaced wholesale by the AES field when a non-empty
password is supplied (line 136). -/
def entryExtraField (opts : EntryOptions) : List Nat :=
  if truthyPassword opts.password then aesExtraField (compressedFlag opts)
  else opts.extraField

/-- Embedding of `createFileEntry(name, reader, writer, config, options)` (lines
118-190). Returns the completed entry record and the bytes it wrote to
`writer`; on a pipeline error it returns the error together with the
bytes already written before the failure (the local header block,
line 160). `now` stands for `new Date()` (line 120). -/
def createFileEntry (proc : Pipeline) (name : String) (reader : Option Reader)
    (opts : EntryOptions) (now : DateTime) :
    Except (ZipError × List Nat) (FileEntry × List Nat) :=
  let filename := getBytes name
  let d := opts.lastModDate.getD now
  let ef := entryExtraField opts
  -- fileDataArray (lines 154-159): signature `0x504b0304` big-endian at
  -- bytes 0-3, headerArray at 4-29, filename at 30.., extra field after.
  let fileData := [0x50, 0x4b, 0x03, 0x04] ++
    mkHeader opts d filename.length ef.length (zeros 4) (zeros 4) (zeros 4) ++
    filename ++ ef
  match reader with
  | none =>
    -- No content: the footer keeps its zero checksum/length/size fields
    -- (lines 174-176) and `result` stays undefined in the length sum.
    let footer := [0x50, 0x4b, 0x07, 0x08] ++ zeros 12
    .ok ({ headerArray :=
             mkHeader opts d filename.length ef.length (zeros 4) (zeros 4) (zeros 4)
           directory := opts.directory
           filename := filename
           comment := getBytes opts.comment
           extraField := ef
           length := fileData.length + footer.length
           offset := 0 },
         fileData ++ footer)
  | some r =>
    match proc (codecOptions opts) r with
    | .error e => .error (e, fileData)
    | .ok res =>
      -- Footer (lines 174-186): signature `0x504b0708` big-endian, then
      -- checksum at 4-7 (only when `!outputPassword && result.signature
      -- !== undefined`), compressed length at 8-11, original size at
      -- 12-15; the same three fields are patched back into headerArray
      -- at offsets 10/14/18 (the central-directory copy).
      let crc := if !truthyPassword opts.password && !(res.signature == none)
                 then u32le (res.signature.getD 0) else zeros 4
      let footer := [0x50, 0x4b, 0x07, 0x08] ++ crc ++
        u32le res.out.length ++ u32le r.size
      .ok ({ headerArray :=
               mkHeader opts d filename.length ef.length crc
                 (u32le res.out.length) (u32le r.size)
             directory := opts.directory
             filename := filename
             comment := getBytes opts.comment
             extraField := ef
             length := fileData.length + res.out.length + footer.length
             offset := 0 },
           fileData ++ res.out ++ footer)

/-- The mutable state of a `ZipWriter` instance: `files` is the JS
`Map` (insertion-ordered, keyed by normalized name; a `none` value is
the `null` placeholder set at line 65), `offset` is `this.offset`, and
`sink` holds the bytes appended to the shared output writer. -/
structure WriterState where
  files : List (String × Option FileEntry)
  offset : Nat
  sink : List Nat
  deriving DecidableEq, Repr

/-- A fresh `ZipWriter` (constructor, lines 40-45). -/
def initialState : WriterState := { files := [], offset := 0, sink := [] }

/-- Embedding of `Map.prototype.has`. -/
def mapHas (m : List (String × Option FileEntry)) (k : String) : Bool :=
  m.any (fun p => p.1 == k)

/-- Embedding of `Map.prototype.set`: update in place when the key exists (keeping
its position), otherwise append. -/
def mapSet (m : List (String × Option FileEntry)) (k : String)
    (v : Option FileEntry) : List (String × Option FileEntry) :=
  if mapHas m k then m.map (fun p => if p.1 == k then (k, v) else p)
  else m ++ [(k, v)]

/-- Embedding of `Map.prototype.get` (distinguishing a missing key from a `null`
placeholder). -/
def mapGet (m : List (String × Option FileEntry)) (k : String) :
    Option (Option FileEntry) :=
  (m.find? (fun p => p.1 == k)).map (·.2)

/-- Name normalization in `add` (lines 58-61): trim, then append `"/"`
when `options.directory` is set and the trimmed name does not already
end in `"/"`. -/
def normalizeName (name : String) (directory : Bool) : String :=
  let n := jsTrim name
  if directory && !lastIsSlash n then n ++ "/" else n

/-- Embedding of `ZipWriter.add(name, reader, options)` (lines 47-73). Returns the
state after the call and the error, if any (the JS method mutates
`this` in place, so a throw still leaves its earlier mutations behind).
With `options.bufferedWrite` the encoder runs against a private
`Uint8ArrayWriter` whose accumulated bytes are appended to the shared
sink in one write (lines 49-51, 68-70); otherwise the encoder writes
directly to the shared sink (lines 52-57), so bytes written before a
pipeline failure stay on it. -/
def addEntry (proc : Pipeline) (now : DateTime) (st : WriterState)
    (name0 : String) (reader : Option Reader) (opts : EntryOptions) :
    WriterState × Option ZipError :=
  let name := normalizeName name0 opts.directory
  if mapHas st.files name then
    (st, some .duplicateName)
  else
    let files1 := mapSet st.files name none
    match createFileEntry proc name reader opts now with
    | .error (e, written) =>
      if opts.bufferedWrite then
        ({ st with files := files1 }, some e)
      else
        ({ st with files := files1, sink := st.sink ++ written }, some e)
    | .ok (entry0, written) =>
      let entry := { entry0 with offset := st.offset }
      if opts.bufferedWrite then
        ({ files := mapSet files1 name (some entry)
           offset := st.offset + entry.length
           sink := st.sink ++ written }, none)
      else
        ({ files := mapSet files1 name (some entry)
           offset := st.offset + entry.length
           sink := st.sink ++ written }, none)

/-- One `add` call, bundled for folding over call sequences. -/
structure AddCall where
  name : String
  reader : Option Reader
  opts : EntryOptions
  deriving Repr

/-- A sequence of `add` calls, stopping at the first error. -/
def addAll (proc : Pipeline) (now : DateTime) :
    WriterState → List AddCall → WriterState × Option ZipError
  | st, [] => (st, none)
  | st, c :: cs =>
    match addEntry proc now st c.name c.reader c.opts with
    | (st', none) => addAll proc now st' cs
    | (st', some e) => (st', some e)

/-- The completed entries of the collection, in insertion order
(`null` placeholders skipped; `close` crashes on them in JS, so it is
only ever applied to states without placeholders). -/
def entriesOf (st : WriterState) : List FileEntry :=
  st.files.filterMap (·.2)

/-- One central-directory record (lines 83-94), as segments of the
region `[o, o + 46 + filename + extraField + comment)` the loop body
fills: signature `0x504b0102` big-endian at 0-3, version-made-by
`0x1400` big-endian at 4-5, the entry's 26-byte `headerArray` at 6-31,
comment length LE at 32-33, bytes 34-37 untouched, external-attributes
byte `0x10` at 38 when the entry is a directory, bytes 39-41 untouched,
the entry's recorded offset LE at 42-45, then filename, extra field and
comment bytes from 46. -/
def cdRecord (e : FileEntry) : List Nat :=
  [0x50, 0x4b, 0x01, 0x02] ++ [0x14, 0x00] ++ e.headerArray ++
    u16le e.comment.length ++ zeros 4 ++
    [if e.directory then 0x10 else 0x00] ++ zeros 3 ++ u32le e.offset ++
    e.filename ++ e.extraField ++ e.comment

/-- Embedding of `directoryDataLength` (lines 76-79). -/
def directoryDataLength (st : WriterState) : Nat :=
  (entriesOf st).foldl
    (fun a e => a + (46 + e.filename.length + e.comment.length + e.extraField.length)) 0

/-- All central-directory records, in collection order (loop at
lines 82-95; each iteration advances `offset` by exactly the record's
length, so the buffer is the records' concatenation). -/
def centralDirectory (st : WriterState) : List Nat :=
  ((entriesOf st).map cdRecord).foldr (· ++ ·) []

/-- The 22-byte end-of-central-directory record (lines 96-106):
signature `0x504b0506` big-endian at 0-3, bytes 4-7 untouched, entry
count (`this.files.size`) LE at 8-9 and again at 10-11, central
directory length LE at 12-15, central directory start offset
(`this.offset`) LE at 16-19, and the comment-length field at 20-21
(`commentField`, zero when no comment is written). -/
def eocdRecord (st : WriterState) (commentField : List Nat) : List Nat :=
  [0x50, 0x4b, 0x05, 0x06] ++ zeros 4 ++ u16le st.files.length ++
    u16le st.files.length ++ u32le (directoryDataLength st) ++
    u32le st.offset ++ commentField

/-- Embedding of `ZipWriter.close(comment)` (lines 75-113): build the directory
buffer, write the comment length only when the comment is non-empty and
`comment.length <= 65536` (throwing `ERR_ZIP_FILE_COMMENT` above that,
line 105, before anything is written), append the buffer and then the
comment bytes to the shared sink, and return the sink's full content
(`writer.getData()`). -/
def close (st : WriterState) (comment : List Nat) :
    Except ZipError (List Nat) :=
  if comment.length ≠ 0 then
    if comment.length ≤ 65536 then
      .ok (st.sink ++ centralDirectory st ++
        eocdRecord st (u16le comment.length) ++ comment)
    else
      .error .commentTooLarge
  else
    .ok (st.sink ++ centralDirectory st ++ eocdRecord st (zeros 2))

/-! ### Concrete instances used by witnesses and counterexamples -/

/-- A deterministic pipeline used by witnesses: writes three bytes and
reports checksum `77`. -/
def pipeline0 : Pipeline := fun _ _ => .ok { out := [9, 9, 9], signature := some 77 }

/-- A pipeline that always fails, for the failed-encoding scenarios. -/
def pipelineFail : Pipeline := fun _ _ => .error .pipelineError

/-- The fixed timestamp 2023-06-15 10:30:45 (`month = 5` is the
0-based `getMonth()` value for June). -/
def now0 : DateTime :=
  { year := 2023, month := 5, day := 15, hours := 10, minutes := 30, seconds := 45 }

/-- A state holding one completed entry named `"a"`, for the duplicate
witness. -/
def stDup : WriterState :=
  { files := [("a", some
      { headerArray := zeros 26, directory := false, filename := [97],
        comment := [], extraField := [], length := 51, offset := 0 })]
    offset := 51
    sink := zeros 51 }

/-- The local-header bytes the failing witness call writes before its
pipeline fails (the value of `createFileEntry`'s `fileData` there). -/
def failWrittenBytes : List Nat :=
  [80, 75, 3, 4, 20, 0, 8, 8, 8, 0, 214, 83, 207, 86,
   0, 0, 0, 0, 0, 0, 0, 0, 0, 0, 0, 0, 1, 0, 0, 0, 97]

/-- Entry options for an encrypted entry: non-empty password `[1]`. -/
def encOpts : EntryOptions := { password := some [1] }

/-- The entry record and written bytes of the encrypted witness call
(with content), evaluated from `createFileEntry`. -/
def encEntryW : FileEntry :=
  { headerArray := [51, 0, 9, 0, 99, 0, 214, 83, 207, 86, 0, 0, 0, 0, 3, 0,
      0, 0, 3, 0, 0, 0, 1, 0, 11, 0]
    directory := false
    filename := [97]
    comment := []
    extraField := [1, 153, 7, 0, 2, 0, 65, 69, 3, 8, 0]
    length := 61
    offset := 0 }

def encBytesW : List Nat :=
  [80, 75, 3, 4, 51, 0, 9, 0, 99, 0, 214, 83, 207, 86, 0, 0, 0, 0, 0, 0,
   0, 0, 0, 0, 0, 0, 1, 0, 11, 0, 97, 1, 153, 7, 0, 2, 0, 65, 69, 3, 8, 0,
   9, 9, 9, 80, 75, 7, 8, 0, 0, 0, 0, 3, 0, 0, 0, 3, 0, 0, 0]

/-- The entry record and written bytes of the encrypted witness call
without content. -/
def encEntryW0 : FileEntry :=
  { headerArray := [51, 0, 9, 0, 99, 0, 214, 83, 207, 86, 0, 0, 0, 0, 0, 0,
      0, 0, 0, 0, 0, 0, 1, 0, 11, 0]
    directory := false
    filename := [97]
    comment := []
    extraField := [1, 153, 7, 0, 2, 0, 65, 69, 3, 8, 0]
    length := 58
    offset := 0 }

def encBytesW0 : List Nat :=
  [80, 75, 3, 4, 51, 0, 9, 0, 99, 0, 214, 83, 207, 86, 0, 0, 0, 0, 0, 0,
   0, 0, 0, 0, 0, 0, 1, 0, 11, 0, 97, 1, 153, 7, 0, 2, 0, 65, 69, 3, 8, 0,
   80, 75, 7, 8, 0, 0, 0, 0, 0, 0, 0, 0, 0, 0, 0, 0]

/-- The pipeline result `pipeline0` reports. -/
def procRes0 : ProcResult := { out := [9, 9, 9], signature := some 77 }

/-- The encoder result of the plain (unencrypted, compressed) witness
call `createFileEntry pipeline0 "a" (some ⟨3⟩) {} now0`. -/
def plainPr : FileEntry × List Nat :=
  ({ headerArray := [20, 0, 8, 8, 8, 0, 214, 83, 207, 86, 77, 0, 0, 0, 3, 0,
       0, 0, 3, 0, 0, 0, 1, 0, 0, 0]
     directory := false
     filename := [97]
     comment := []
     extraField := []
     length := 50
     offset := 0 },
   [80, 75, 3, 4, 20, 0, 8, 8, 8, 0, 214, 83, 207, 86, 0, 0, 0, 0, 0, 0,
    0, 0, 0, 0, 0, 0, 1, 0, 0, 0, 97, 9, 9, 9,
    80, 75, 7, 8, 77, 0, 0, 0, 3, 0, 0, 0, 3, 0, 0, 0])

/-- Offset chaining: under `chainedFrom o es`, starting at running offset `o`, each entry's
recorded offset is exactly the running offset reached by summing the
byte lengths of the entries before it. -/
def chainedFrom : Nat → List FileEntry → Bool
  | _, [] => true
  | o, e :: es => (e.offset == o) && chainedFrom (o + e.length) es

/-- The running offset after writing `es` starting from offset `o`. -/
def endOffset (o : Nat) (es : List FileEntry) : Nat :=
  es.foldl (fun a e => a + e.length) o

/-- The offset bookkeeping invariant of a writer state: completed
entries are chained from offset 0 and `this.offset` is the final
running offset. -/
def StInv (st : WriterState) : Prop :=
  chainedFrom 0 (entriesOf st) = true ∧ st.offset = endOffset 0 (entriesOf st)

/-- Two concrete `add` calls (one file with content, one directory). -/
def callsC3 : List AddCall :=
  [{ name := "a", reader := some ⟨3⟩, opts := {} },
   { name := "b", reader := none, opts := { directory := true } }]

/-- The state after running `callsC3` from a fresh writer. -/
def stC3 : WriterState := (addAll pipeline0 now0 initialState callsC3).1

/-! ### Basic lemmas about the embedded operations -/

theorem headerPrefix_length (opts : EntryOptions) : (headerPrefix opts).length = 6 := by
  unfold headerPrefix
  split
  · rfl
  · split <;> rfl

theorem u16le_length (v : Nat) : (u16le v).length = 2 := rfl

theorem u32le_length (v : Nat) : (u32le v).length = 4 := rfl

theorem zeros_length (n : Nat) : (zeros n).length = n := List.length_replicate n 0

theorem mkHeader_length (opts : EntryOptions) (d : DateTime) (fnLen efLen : Nat)
    (crc comp size : List Nat) (h1 : crc.length = 4) (h2 : comp.length = 4)
    (h3 : size.length = 4) :
    (mkHeader opts d fnLen efLen crc comp size).length = 26 := by
  simp [mkHeader, headerPrefix_length, u16le_length, h1, h2, h3]

theorem mapHas_eq_false_iff (m : List (String × Option FileEntry)) (k : String) :
    mapHas m k = false ↔ ∀ p ∈ m, (p.1 == k) = false := by
  simp [mapHas, List.any_eq_true]

theorem mapSet_not_mem (m : List (String × Option FileEntry)) (k : String)
    (v : Option FileEntry) (h : mapHas m k = false) :
    mapSet m k v = m ++ [(k, v)] := by
  simp [mapSet, h]

theorem map_id_of_not_mem (m : List (String × Option FileEntry)) (k : String)
    (v : Option FileEntry) (h : mapHas m k = false) :
    m.map (fun p => if p.1 == k then (k, v) else p) = m := by
  induction m with
  | nil => rfl
  | cons p m ih =>
    have h' : (p.1 == k) = false ∧ mapHas m k = false := by
      simpa [mapHas] using h
    simp only [List.map_cons, ih h'.2]
    rw [if_neg (by simp [h'.1] : ¬((p.1 == k) = true))]

theorem mapSet_append_self (m : List (String × Option FileEntry)) (k : String)
    (w v : Option FileEntry) (h : mapHas m k = false) :
    mapSet (m ++ [(k, w)]) k v = m ++ [(k, v)] := by
  have hhas : mapHas (m ++ [(k, w)]) k = true := by
    simp [mapHas]
  unfold mapSet
  rw [hhas]
  simp only [if_true, List.map_append, map_id_of_not_mem m k v h]
  simp

theorem entriesOf_append_some (files : List (String × Option FileEntry))
    (k : String) (e : FileEntry) :
    (files ++ [(k, some e)]).filterMap (·.2) = files.filterMap (·.2) ++ [e] := by
  simp

/-- Unpack a successful `add` call into its effects on the state. -/
theorem addEntry_ok (proc : Pipeline) (now : DateTime) (st : WriterState)
    (name0 : String) (reader : Option Reader) (opts : EntryOptions) (st' : WriterState)
    (h : addEntry proc now st name0 reader opts = (st', none)) :
    ∃ entry written,
      mapHas st.files (normalizeName name0 opts.directory) = false ∧
      createFileEntry proc (normalizeName name0 opts.directory) reader opts now
        = .ok (entry, written) ∧
      st'.files = st.files ++
        [(normalizeName name0 opts.directory, some { entry with offset := st.offset })] ∧
      st'.offset = st.offset + entry.length ∧
      st'.sink = st.sink ++ written := by
  unfold addEntry at h
  by_cases hdup : mapHas st.files (normalizeName name0 opts.directory) = true
  · simp [hdup] at h
  · have hdup' : mapHas st.files (normalizeName name0 opts.directory) = false := by
      simpa using hdup
    simp only [hdup', Bool.false_eq_true, if_false] at h
    split at h
    · rename_i e written heq
      split at h <;> simp at h
    · rename_i entry0 written heq
      refine ⟨entry0, written, hdup', heq, ?_⟩
      have hst' : st' =
          { files := mapSet (mapSet st.files (normalizeName name0 opts.directory) none)
                       (normalizeName name0 opts.directory)
                       (some { entry0 with offset := st.offset })
            offset := st.offset + entry0.length
            sink := st.sink ++ written } := by
        split at h <;> exact (((Prod.mk.injEq _ _ _ _).mp h).1).symm
      rw [hst', mapSet_not_mem _ _ _ hdup',
        mapSet_append_self _ _ _ _ hdup']
      exact ⟨rfl, rfl, rfl⟩

/-! ### Claim theorems -/

/-- Claim C2: an `add` whose normalized name (trimmed, trailing `/`
appended when `options.directory` is set) is already a key of the entry
collection fails with `DuplicateNameError` and leaves the state exactly
as it was: no bytes reach the sink and the entry count is unchanged. -/
theorem add_duplicate_name (proc : Pipeline) (now : DateTime) (st : WriterState)
    (name0 : String) (reader : Option Reader) (opts : EntryOptions)
    (h : mapHas st.files (normalizeName name0 opts.directory) = true) :
    addEntry proc now st name0 reader opts = (st, some ZipError.duplicateName) ∧
    (addEntry proc now st name0 reader opts).1.sink = st.sink ∧
    (addEntry proc now st name0 reader opts).1.files.length = st.files.length := by
  simp [addEntry, h]

/-- Witness for C2: adding `"a"` to a state that already has `"a"`. -/
theorem add_duplicate_name_witness :
    addEntry pipeline0 now0 stDup "a" none {} = (stDup, some ZipError.duplicateName) ∧
    (addEntry pipeline0 now0 stDup "a" none {}).1.sink = stDup.sink ∧
    (addEntry pipeline0 now0 stDup "a" none {}).1.files.length = stDup.files.length :=
  add_duplicate_name pipeline0 now0 stDup "a" none {} (by decide)

/-- Claim C4: the 16-bit DOS time field at header offset 6 is
`((hour << 6 | minute) << 5) | (second / 2)` and the 16-bit DOS date
field at header offset 8 is `(((year - 1980) << 4 | month) << 5) | day`
with the 1-based month, both little-endian; and for 2023-06-15 10:30:45
the packed fields are exactly the formula values `21462` and `22223`
(bytes `[214, 83]` and `[207, 86]`). -/
theorem dos_datetime_fields (opts : EntryOptions) (d : DateTime) (fnLen efLen : Nat)
    (crc comp size : List Nat) :
    ((mkHeader opts d fnLen efLen crc comp size).drop 6).take 2
      = u16le ((((d.hours <<< 6) ||| d.minutes) <<< 5) ||| d.seconds / 2) ∧
    ((mkHeader opts d fnLen efLen crc comp size).drop 8).take 2
      = u16le (((((d.year - 1980) <<< 4) ||| (d.month + 1)) <<< 5) ||| d.day) ∧
    ((mkHeader opts now0 fnLen efLen crc comp size).drop 6).take 4
      = [214, 83, 207, 86] := by
  refine ⟨?_, ?_, ?_⟩ <;>
    · unfold mkHeader headerPrefix dosTime dosDate
      split
      · simp [u16le, now0]
      · split <;> simp [u16le, now0]

/-- Claim C10: a non-empty password discards any caller-supplied
`options.extraField` entirely — the produced entry's extra field is the
fixed 11-byte AES field (identifier `0x9901`), with byte 9 patched from
`0x00` to `0x08` exactly when the entry is compressed (`level` not 0 and
not a directory) — and the whole result of `createFileEntry` is
independent of the caller's `extraField` bytes. -/
theorem aes_extraField_override (proc : Pipeline) (name : String)
    (reader : Option Reader) (opts : EntryOptions) (now : DateTime) (pw : List Nat)
    (hpw : opts.password = some pw) (hne : pw ≠ []) :
    (∀ x, createFileEntry proc name reader { opts with extraField := x } now
        = createFileEntry proc name reader opts now) ∧
    (∀ e w, createFileEntry proc name reader opts now = .ok (e, w) →
      e.extraField = [0x01, 0x99, 0x07, 0x00, 0x02, 0x00, 0x41, 0x45, 0x03,
        if compressedFlag opts then 0x08 else 0x00, 0x00]) := by
  have htr : truthyPassword opts.password = true := by
    rw [hpw]
    simpa [truthyPassword] using hne
  constructor
  · intro x
    simp only [createFileEntry, entryExtraField, codecOptions, compressedFlag,
      outputSignedFlag, mkHeader, headerPrefix, versionByte, htr, if_true]
  · intro e w hok
    cases reader with
    | none =>
      simp only [createFileEntry, entryExtraField, htr, if_true, aesExtraField,
        Except.ok.injEq, Prod.mk.injEq] at hok
      rw [← hok.1]
    | some r =>
      cases hp : proc (codecOptions opts) r with
      | error e' =>
        simp [createFileEntry, hp] at hok
      | ok res =>
        simp only [createFileEntry, entryExtraField, htr, if_true, aesExtraField,
          hp, Except.ok.injEq, Prod.mk.injEq] at hok
        rw [← hok.1]

/-- Witness for C10: password `[1]`, caller extra field `[5, 5]`,
compressed (no explicit level, not a directory). -/
theorem aes_extraField_override_witness :
    (∀ x, createFileEntry pipeline0 "a" none
        { password := some [1], extraField := x } now0
      = createFileEntry pipeline0 "a" none { password := some [1] } now0) ∧
    (∀ e w, createFileEntry pipeline0 "a" none { password := some [1] } now0
        = .ok (e, w) →
      e.extraField = [0x01, 0x99, 0x07, 0x00, 0x02, 0x00, 0x41, 0x45, 0x03,
        if compressedFlag { password := some [1] } then 0x08 else 0x00, 0x00]) :=
  aes_extraField_override pipeline0 "a" none { password := some [1] } now0 [1]
    rfl (by decide)

theorem mapGet_append_last (m : List (String × Option FileEntry)) (k : String)
    (v : Option FileEntry) (h : mapHas m k = false) :
    mapGet (m ++ [(k, v)]) k = some v := by
  induction m with
  | nil => simp [mapGet]
  | cons p m ih =>
    have h' : (p.1 == k) = false ∧ mapHas m k = false := by
      simpa [mapHas] using h
    simpa [mapGet, List.find?, h'.1] using ih h'.2

/-- Claim C1 (code bug, line 102): the source checks
`comment.length <= 65536`, so a `close` comment of any length up to and
including 65536 is accepted — a comment of exactly 65536 bytes does NOT
raise `CommentTooLargeError`; its 16-bit trailer length field is
written as `u16le 65536 = u16le 0` (truncation) while the 65536 comment
bytes still follow. The first rejected length is 65537. A 65535-byte
comment succeeds with a correct length field, as the claim states. -/
theorem close_comment_limit (st : WriterState) (n : Nat) :
    (close st (List.replicate n 97) =
      if n = 0 then .ok (st.sink ++ centralDirectory st ++ eocdRecord st (zeros 2))
      else if n ≤ 65536 then
        .ok (st.sink ++ centralDirectory st ++ eocdRecord st (u16le n) ++
          List.replicate n 97)
      else .error ZipError.commentTooLarge) ∧
    u16le 65536 = u16le 0 := by
  constructor
  · unfold close
    rw [List.length_replicate]
    by_cases h0 : n = 0
    · simp [h0]
    · by_cases h1 : n ≤ 65536 <;> simp [h0, h1]
  · decide

/-- Claim C8 counterexample: an `add` whose pipeline fails does NOT
remove the pending name reservation — starting from an empty writer, the
failed call leaves key `"a"` (mapped to the `null` placeholder) in the
collection, so the keys after the call differ from the keys before. -/
theorem failed_add_keeps_reservation_cex :
    (addEntry pipelineFail now0 initialState "a" (some ⟨3⟩) {}).1.files
      = [("a", none)] ∧
    initialState.files = ([] : List (String × Option FileEntry)) ∧
    (addEntry pipelineFail now0 initialState "a" (some ⟨3⟩) {}).2
      = some ZipError.pipelineError := by
  refine ⟨?_, rfl, ?_⟩ <;> decide

/-- Claim C8 (amended): when entry encoding fails, the pending
reservation inserted at call start is NOT removed: the collection
afterwards equals the collection before plus the normalized name mapped
to the placeholder, the pipeline error propagates, and the shared sink
keeps the header bytes written before the failure (nothing, in buffered
mode). -/
theorem add_failure_keeps_placeholder (proc : Pipeline) (now : DateTime)
    (st : WriterState) (name0 : String) (reader : Option Reader)
    (opts : EntryOptions) (e : ZipError) (written : List Nat)
    (hfresh : mapHas st.files (normalizeName name0 opts.directory) = false)
    (herr : createFileEntry proc (normalizeName name0 opts.directory) reader opts now
      = .error (e, written)) :
    addEntry proc now st name0 reader opts =
      ({ st with
          files := st.files ++ [(normalizeName name0 opts.directory, none)]
          sink := st.sink ++ (if opts.bufferedWrite then [] else written) },
        some e) := by
  simp only [addEntry, hfresh, Bool.false_eq_true, if_false, herr]
  split <;> simp [mapSet_not_mem _ _ _ hfresh]

/-- Witness for the amended C8: the concrete failing call of the
counterexample satisfies the theorem's hypotheses. -/
theorem add_failure_keeps_placeholder_witness :
    addEntry pipelineFail now0 initialState "a" (some ⟨3⟩) {} =
      ({ initialState with
          files := initialState.files ++
            [(normalizeName "a" (EntryOptions.directory {}), none)]
          sink := initialState.sink ++
            (if EntryOptions.bufferedWrite {} then [] else failWrittenBytes) },
        some ZipError.pipelineError) :=
  add_failure_keeps_placeholder pipelineFail now0 initialState "a" (some ⟨3⟩) {}
    ZipError.pipelineError failWrittenBytes (by decide) (by rfl)

/-- Evaluation lemma: `createFileEntry` with no content source always succeeds and
produces a zero-content entry: local header block followed directly by
the all-zero 16-byte footer. -/
theorem createFileEntry_none (proc : Pipeline) (name : String) (opts : EntryOptions)
    (now : DateTime) :
    createFileEntry proc name none opts now =
      .ok ({ headerArray := mkHeader opts (opts.lastModDate.getD now)
               (getBytes name).length (entryExtraField opts).length
               (zeros 4) (zeros 4) (zeros 4)
             directory := opts.directory
             filename := getBytes name
             comment := getBytes opts.comment
             extraField := entryExtraField opts
             length := (30 + (getBytes name).length + (entryExtraField opts).length) + 16
             offset := 0 },
           ([0x50, 0x4b, 0x03, 0x04] ++ mkHeader opts (opts.lastModDate.getD now)
               (getBytes name).length (entryExtraField opts).length
               (zeros 4) (zeros 4) (zeros 4) ++ getBytes name ++ entryExtraField opts)
             ++ ([0x50, 0x4b, 0x07, 0x08] ++ zeros 12)) := by
  unfold createFileEntry
  simp [mkHeader_length, zeros_length]
  omega

/-- A successful `add`, computed forward: append the completed record
(with the current running offset), advance the offset by the entry's
byte length, append the encoder's bytes to the sink. -/
theorem addEntry_ok_forward (proc : Pipeline) (now : DateTime) (st : WriterState)
    (name0 : String) (reader : Option Reader) (opts : EntryOptions)
    (entry0 : FileEntry) (written : List Nat)
    (hfresh : mapHas st.files (normalizeName name0 opts.directory) = false)
    (hcf : createFileEntry proc (normalizeName name0 opts.directory) reader opts now
      = .ok (entry0, written)) :
    addEntry proc now st name0 reader opts =
      ({ files := st.files ++
           [(normalizeName name0 opts.directory, some { entry0 with offset := st.offset })]
         offset := st.offset + entry0.length
         sink := st.sink ++ written }, none) := by
  simp only [addEntry, hfresh, Bool.false_eq_true, if_false, hcf]
  split <;> rw [mapSet_not_mem _ _ _ hfresh, mapSet_append_self _ _ _ _ hfresh]

/-- The external-attributes byte of a central-directory record sits at
offset 38 and is `0x10` for directories, `0x00` otherwise. -/
theorem cdRecord_dir_byte (e : FileEntry) (h26 : e.headerArray.length = 26) :
    ∃ pre post, cdRecord e = pre ++ [if e.directory then 0x10 else 0x00] ++ post ∧
      pre.length = 38 := by
  refine ⟨[0x50, 0x4b, 0x01, 0x02] ++ [0x14, 0x00] ++ e.headerArray ++
      u16le e.comment.length ++ zeros 4,
    zeros 3 ++ u32le e.offset ++ e.filename ++ e.extraField ++ e.comment, ?_, ?_⟩
  · simp [cdRecord, List.append_assoc]
  · simp [h26, u16le, zeros]

/-- An `add` with no content source, on a fresh name: the resulting
entry's shape. -/
theorem addEntry_none_props (proc : Pipeline) (now : DateTime) (st : WriterState)
    (name0 : String) (opts : EntryOptions)
    (hfresh : mapHas st.files (normalizeName name0 opts.directory) = false) :
    ∃ entry written,
      addEntry proc now st name0 none opts =
        ({ files := st.files ++ [(normalizeName name0 opts.directory, some entry)]
           offset := st.offset + entry.length
           sink := st.sink ++ written }, none) ∧
      entry.directory = opts.directory ∧
      entry.filename = getBytes (normalizeName name0 opts.directory) ∧
      entry.headerArray.length = 26 ∧
      entry.length = (30 + entry.filename.length + entry.extraField.length) + 16 := by
  refine ⟨_, _,
    addEntry_ok_forward proc now st name0 none opts _ _ hfresh
      (createFileEntry_none proc (normalizeName name0 opts.directory) opts now),
    rfl, rfl, ?_, rfl⟩
  exact mkHeader_length _ _ _ _ _ _ _ (zeros_length 4) (zeros_length 4) (zeros_length 4)

/-- Claim C6: adding a name with no trailing `/` under
`directory: true` and no content source stores the name with a `/`
appended, yields an entry whose byte length is exactly the local header
block (30 bytes + name + extra field) plus the 16-byte footer — no
content bytes — and whose central-directory record carries the
external-attributes directory byte `0x10` at record offset 38. -/
theorem add_directory_entry (proc : Pipeline) (now : DateTime) (st : WriterState)
    (name0 : String) (opts : EntryOptions)
    (hslash : lastIsSlash (jsTrim name0) = false)
    (hfresh : mapHas st.files (jsTrim name0 ++ "/") = false) :
    (addEntry proc now st name0 none { opts with directory := true }).2 = none ∧
    ∃ entry,
      mapGet (addEntry proc now st name0 none { opts with directory := true }).1.files
          (jsTrim name0 ++ "/") = some (some entry) ∧
      entry.filename = getBytes (jsTrim name0 ++ "/") ∧
      entry.directory = true ∧
      entry.length = (30 + entry.filename.length + entry.extraField.length) + 16 ∧
      ∃ pre post, cdRecord entry = pre ++ [0x10] ++ post ∧ pre.length = 38 := by
  have hname : normalizeName name0
      (({ opts with directory := true } : EntryOptions)).directory
      = jsTrim name0 ++ "/" := by
    simp [normalizeName, hslash]
  have hfresh' : mapHas st.files
      (normalizeName name0 (({ opts with directory := true } : EntryOptions)).directory)
      = false := by rw [hname]; exact hfresh
  obtain ⟨entry, written, hadd, hdir, hfn, h26, hlen⟩ :=
    addEntry_none_props proc now st name0 { opts with directory := true } hfresh'
  rw [hadd]
  refine ⟨rfl, entry, ?_, ?_, ?_, hlen, ?_⟩
  · rw [← hname]
    exact mapGet_append_last st.files _ _ hfresh'
  · rw [hfn, hname]
  · rw [hdir]
  · obtain ⟨pre, post, heq, hL⟩ := cdRecord_dir_byte entry h26
    simp only [hdir] at heq
    exact ⟨pre, post, heq, hL⟩

/-- Witness for C6: the round-trip of the spec — `"docs"` with
`directory: true` becomes a stored `"docs/"` directory entry. -/
theorem add_directory_entry_witness :
    (addEntry pipeline0 now0 initialState "docs" none
        { ({} : EntryOptions) with directory := true }).2 = none ∧
    ∃ entry,
      mapGet (addEntry pipeline0 now0 initialState "docs" none
          { ({} : EntryOptions) with directory := true }).1.files
          (jsTrim "docs" ++ "/") = some (some entry) ∧
      entry.filename = getBytes (jsTrim "docs" ++ "/") ∧
      entry.directory = true ∧
      entry.length = (30 + entry.filename.length + entry.extraField.length) + 16 ∧
      ∃ pre post, cdRecord entry = pre ++ [0x10] ++ post ∧ pre.length = 38 :=
  add_directory_entry pipeline0 now0 initialState "docs" {} (by decide) (by decide)

/-- Claim C5 counterexample: an encrypted entry (`password = [1]`) whose
pipeline wrote 3 content bytes. Its written stream `w` has the 16-byte
footer at bytes 45-60: the checksum field (bytes 49-52) is zero as the
claim says, but the compressed-length field (bytes 53-56) is
`[3, 0, 0, 0]` and the original-size field (bytes 57-60) is
`[3, 0, 0, 0]` — NOT zero, refuting "when the entry is encrypted, all
three fields are left zero" (lines 182-185 fill length and size for
every entry with content, encrypted or not). -/
theorem encrypted_footer_filled_cex :
    (createFileEntry pipeline0 "a" (some ⟨3⟩) encOpts now0).map
        (fun pr => ((pr.2.drop 49).take 4, (pr.2.drop 53).take 4, (pr.2.drop 57).take 4))
      = .ok ([0, 0, 0, 0], [3, 0, 0, 0], [3, 0, 0, 0]) ∧
    truthyPassword encOpts.password = true := by
  exact ⟨rfl, rfl⟩

/-- Claim C5 (amended): the encoder writes a 16-byte footer starting
with the 4-byte descriptor signature. When content was processed, the
compressed-length and original-size fields are always filled
(little-endian 32-bit) — also for encrypted entries — while the
checksum field is filled exactly when, in addition, the entry is not
encrypted and the pipeline reported a checksum; with no content source
all three fields are left zero. -/
theorem footer_fields (proc : Pipeline) (name : String) (opts : EntryOptions)
    (now : DateTime) (r : Reader) (res : ProcResult) (e : FileEntry) (w : List Nat)
    (e0 : FileEntry) (w0 : List Nat)
    (hproc : proc (codecOptions opts) r = .ok res)
    (hok : createFileEntry proc name (some r) opts now = .ok (e, w))
    (hok0 : createFileEntry proc name none opts now = .ok (e0, w0)) :
    (∃ body, w = body ++ ([0x50, 0x4b, 0x07, 0x08] ++
      (if !truthyPassword opts.password && !(res.signature == none)
       then u32le (res.signature.getD 0) else zeros 4) ++
      u32le res.out.length ++ u32le r.size)) ∧
    (∃ body, w0 = body ++ ([0x50, 0x4b, 0x07, 0x08] ++ zeros 12)) := by
  constructor
  · simp only [createFileEntry, hproc, Except.ok.injEq, Prod.mk.injEq] at hok
    exact ⟨_, by rw [← hok.2, List.append_assoc, List.append_assoc]⟩
  · simp only [createFileEntry, Except.ok.injEq, Prod.mk.injEq] at hok0
    exact ⟨_, by rw [← hok0.2]⟩

/-- Witness for the amended C5 at the encrypted concrete call. -/
theorem footer_fields_witness :
    (∃ body, encBytesW = body ++ ([0x50, 0x4b, 0x07, 0x08] ++
      (if !truthyPassword encOpts.password && !(procRes0.signature == none)
       then u32le (procRes0.signature.getD 0) else zeros 4) ++
      u32le procRes0.out.length ++ u32le (Reader.mk 3).size)) ∧
    (∃ body, encBytesW0 = body ++ ([0x50, 0x4b, 0x07, 0x08] ++ zeros 12)) :=
  footer_fields pipeline0 "a" encOpts now0 ⟨3⟩ procRes0 encEntryW encBytesW
    encEntryW0 encBytesW0 rfl rfl rfl

/-- Claim C9: an `add` with `bufferedWrite` (encode into a private
in-memory sink, then append its accumulated bytes to the shared sink as
one write) produces exactly the same result as the same `add` encoding
directly against the shared sink — same appended byte sequence, same
entry record (byte length, header bytes, assigned offset), same running
offset — whenever the entry encoding succeeds. -/
theorem bufferedWrite_equivalent (proc : Pipeline) (now : DateTime)
    (st : WriterState) (name0 : String) (reader : Option Reader)
    (opts : EntryOptions) (pr : FileEntry × List Nat)
    (hok : createFileEntry proc (normalizeName name0 opts.directory) reader opts now
      = .ok pr) :
    addEntry proc now st name0 reader { opts with bufferedWrite := true }
      = addEntry proc now st name0 reader { opts with bufferedWrite := false } := by
  by_cases hdup : mapHas st.files (normalizeName name0 opts.directory) = true
  · rw [(add_duplicate_name proc now st name0 reader
        { opts with bufferedWrite := true } hdup).1,
      (add_duplicate_name proc now st name0 reader
        { opts with bufferedWrite := false } hdup).1]
  · have hfresh : mapHas st.files (normalizeName name0 opts.directory) = false := by
      simpa using hdup
    rw [addEntry_ok_forward proc now st name0 reader { opts with bufferedWrite := true }
        pr.1 pr.2 hfresh hok,
      addEntry_ok_forward proc now st name0 reader { opts with bufferedWrite := false }
        pr.1 pr.2 hfresh hok]

/-- Witness for C9: a concrete entry with content added both ways. -/
theorem bufferedWrite_equivalent_witness :
    addEntry pipeline0 now0 initialState "a" (some ⟨3⟩)
        { ({} : EntryOptions) with bufferedWrite := true }
      = addEntry pipeline0 now0 initialState "a" (some ⟨3⟩)
        { ({} : EntryOptions) with bufferedWrite := false } :=
  bufferedWrite_equivalent pipeline0 now0 initialState "a" (some ⟨3⟩) {} plainPr rfl

theorem endOffset_snoc (o : Nat) (es : List FileEntry) (e : FileEntry) :
    endOffset o (es ++ [e]) = endOffset o es + e.length := by
  simp [endOffset]

theorem chainedFrom_snoc (o : Nat) (es : List FileEntry) (e : FileEntry)
    (h1 : chainedFrom o es = true) (h2 : e.offset = endOffset o es) :
    chainedFrom o (es ++ [e]) = true := by
  induction es generalizing o with
  | nil =>
    simp [endOffset] at h2
    simp [chainedFrom, h2]
  | cons a es ih =>
    simp only [chainedFrom, Bool.and_eq_true] at h1
    simp only [List.cons_append, chainedFrom, Bool.and_eq_true]
    exact ⟨h1.1, ih _ h1.2 (by simpa [endOffset] using h2)⟩

/-- A successful `add` preserves the offset bookkeeping invariant. -/
theorem addEntry_preserves_inv (proc : Pipeline) (now : DateTime) (st : WriterState)
    (name0 : String) (reader : Option Reader) (opts : EntryOptions) (st' : WriterState)
    (h : addEntry proc now st name0 reader opts = (st', none)) (hinv : StInv st) :
    StInv st' := by
  obtain ⟨entry, written, hfresh, hcf, hfiles, hoff, hsink⟩ :=
    addEntry_ok proc now st name0 reader opts st' h
  have hE : entriesOf st' = entriesOf st ++ [{ entry with offset := st.offset }] := by
    rw [entriesOf, hfiles]
    exact entriesOf_append_some st.files _ _
  constructor
  · rw [hE]
    exact chainedFrom_snoc 0 _ _ hinv.1 hinv.2
  · rw [hE, endOffset_snoc, hoff, hinv.2]

/-- Running `addAll` preserves the offset bookkeeping invariant. -/
theorem addAll_preserves_inv (proc : Pipeline) (now : DateTime) (calls : List AddCall) :
    ∀ st st', addAll proc now st calls = (st', none) → StInv st → StInv st' := by
  induction calls with
  | nil =>
    intro st st' h hinv
    simp only [addAll, Prod.mk.injEq, and_true] at h
    rw [← h]
    exact hinv
  | cons c cs ih =>
    intro st st' h hinv
    unfold addAll at h
    split at h
    · rename_i st1 heq
      exact ih st1 st' h
        (addEntry_preserves_inv proc now st c.name c.reader c.opts st1 heq hinv)
    · rename_i st1 e heq
      simp at h

/-- Claim C3: across every sequence of successful `add` calls from a
fresh writer, the recorded offsets are chained — entry `i + 1`'s offset
equals entry `i`'s offset plus entry `i`'s byte length, starting from 0
— the writer's running offset equals the offset reached after the last
entry, and the end-of-central-directory trailer declares exactly that
running offset (little-endian, at trailer bytes 16-19) as the central
directory's start. -/
theorem offsets_chained (proc : Pipeline) (now : DateTime) (calls : List AddCall)
    (st' : WriterState) (cf : List Nat)
    (h : addAll proc now initialState calls = (st', none)) :
    chainedFrom 0 (entriesOf st') = true ∧
    st'.offset = endOffset 0 (entriesOf st') ∧
    ((eocdRecord st' cf).drop 16).take 4 = u32le st'.offset := by
  have hinv := addAll_preserves_inv proc now calls initialState st' h ⟨rfl, rfl⟩
  refine ⟨hinv.1, hinv.2, ?_⟩
  simp [eocdRecord, u16le, u32le, zeros]

/-- Witness for C3 at the two-call concrete run. -/
theorem offsets_chained_witness :
    chainedFrom 0 (entriesOf stC3) = true ∧
    stC3.offset = endOffset 0 (entriesOf stC3) ∧
    ((eocdRecord stC3 (zeros 2)).drop 16).take 4 = u32le stC3.offset :=
  offsets_chained pipeline0 now0 callsC3 stC3 (zeros 2) (by decide)

/-- A successful `addAll` appends exactly the normalized call names, in
call order, to the key sequence, and keeps every value completed when
it started with no pending placeholder. -/
theorem addAll_names (proc : Pipeline) (now : DateTime) (calls : List AddCall) :
    ∀ st st', addAll proc now st calls = (st', none) →
      st'.files.map Prod.fst = st.files.map Prod.fst ++
        calls.map (fun c => normalizeName c.name c.opts.directory) ∧
      (st.files.all (fun p => p.2.isSome) = true →
        st'.files.all (fun p => p.2.isSome) = true) := by
  induction calls with
  | nil =>
    intro st st' h
    simp only [addAll, Prod.mk.injEq, and_true] at h
    rw [← h]
    simp
  | cons c cs ih =>
    intro st st' h
    unfold addAll at h
    split at h
    · rename_i st1 heq
      obtain ⟨entry, written, hfresh, hcf, hfiles, hoff, hsink⟩ :=
        addEntry_ok proc now st c.name c.reader c.opts st1 heq
      obtain ⟨ih1, ih2⟩ := ih st1 st' h
      constructor
      · rw [ih1, hfiles]
        simp
      · intro hall
        apply ih2
        rw [hfiles]
        simp [List.all_append, hall]
    · rename_i st1 e heq
      simp at h

theorem entriesOf_length_of_all_some (m : List (String × Option FileEntry))
    (h : m.all (fun p => p.2.isSome) = true) :
    (m.filterMap (·.2)).length = m.length := by
  induction m with
  | nil => rfl
  | cons p m ih =>
    simp only [List.all_cons, Bool.and_eq_true] at h
    cases hp : p.2 with
    | none => rw [hp] at h; simp at h
    | some e => simp [List.filterMap_cons, hp, ih h.2]

/-- Claim C7: after every sequence of successful `add` calls with
unique names from a fresh writer, the collection holds one completed
record per call, keyed by the normalized names in call order; `close`
serializes the central directory as the concatenation of one record per
entry in that order, and writes the entry count — equal to the number
of `add` calls — identically into both 16-bit count fields (trailer
bytes 8-9 and 10-11). -/
theorem close_directory_counts (proc : Pipeline) (now : DateTime)
    (calls : List AddCall) (st' : WriterState) (cf : List Nat)
    (h : addAll proc now initialState calls = (st', none)) :
    st'.files.map Prod.fst =
      calls.map (fun c => normalizeName c.name c.opts.directory) ∧
    st'.files.all (fun p => p.2.isSome) = true ∧
    (entriesOf st').length = calls.length ∧
    centralDirectory st' = ((entriesOf st').map cdRecord).foldr (· ++ ·) [] ∧
    ((eocdRecord st' cf).drop 8).take 2 = u16le calls.length ∧
    ((eocdRecord st' cf).drop 10).take 2 = u16le calls.length := by
  obtain ⟨h1, h2⟩ := addAll_names proc now calls initialState st' h
  have h2' := h2 rfl
  have hlen : st'.files.length = calls.length := by
    have := congrArg List.length h1
    simpa [initialState] using this
  refine ⟨by simpa using h1, h2', ?_, rfl, ?_, ?_⟩
  · rw [entriesOf, entriesOf_length_of_all_some _ h2', hlen]
  · rw [← hlen]
    simp [eocdRecord, u16le, u32le, zeros]
  · rw [← hlen]
    simp [eocdRecord, u16le, u32le, zeros]

/-- Witness for C7 at the two-call concrete run. -/
theorem close_directory_counts_witness :
    stC3.files.map Prod.fst =
      callsC3.map (fun c => normalizeName c.name c.opts.directory) ∧
    stC3.files.all (fun p => p.2.isSome) = true ∧
    (entriesOf stC3).length = callsC3.length ∧
    centralDirectory stC3 = ((entriesOf stC3).map cdRecord).foldr (· ++ ·) [] ∧
    ((eocdRecord stC3 (zeros 2)).drop 8).take 2 = u16le callsC3.length ∧
    ((eocdRecord stC3 (zeros 2)).drop 10).take 2 = u16le callsC3.length :=
  close_directory_counts pipeline0 now0 callsC3 stC3 (zeros 2) (by decide)

end ZipWriterModel

